import Mathlib

/-!
Shallow embedding of the Assignment-Portal backend core
(`src/backend/src/controllers/assignmentController.js`,
`src/backend/src/controllers/submissionController.js`, and the mongoose
schemas for `Assignment` and `Submission`).

Conventions of the embedding:
* Mongo object ids are `Nat`; timestamps are `Int` (milliseconds).
* A store is a `List` of records; `findById` is `List.find?` on the id,
  `save` replaces the record with the same id in place.
* Controller handlers become pure functions taking the relevant stores,
  the authenticated caller (`userId`, role fixed by the route), the
  request parameters, and — where the code reads the clock — an explicit
  `now`.  They return an `Except CtrlError β` together with the store
  after the call, which is unchanged on every error path (the JS code
  only mutates via `save`/`create`, which early returns skip).
* The serving layer maps error kinds to HTTP codes; following §7 of the
  design document each 4xx early return is tagged with its semantic kind
  (`validationError` 400 on malformed input, `notFound` 404, `forbidden`
  403, `invalidState` 400 on lifecycle violations, `conflict` 400 on the
  duplicate-submission path).  Message strings are kept verbatim.
* JS truthiness on strings (`if (title)`, `!answer`) is `s ≠ ""`;
  truthiness on numbers (`stats.averageGrade ? … : null`) is `q ≠ 0`.
* Grades are `ℚ` (JS numbers in the validated range are exact);
  `Math.round` is `⌊x + 1/2⌋`.
-/

/-- Assignment lifecycle status, the mongoose enum
`['Draft', 'Published', 'Completed']`. -/
inductive Status where
  | Draft
  | Published
  | Completed
deriving DecidableEq, Repr

/-- The string naming a status, as it appears in requests and messages. -/
def statusName : Status → String
  | .Draft => "Draft"
  | .Published => "Published"
  | .Completed => "Completed"

/-- Parse a request status string against the enum list
`['Draft', 'Published', 'Completed']`; `none` for anything else
(including the falsy empty string). -/
def Status.ofString? : String → Option Status
  | "Draft" => some .Draft
  | "Published" => some .Published
  | "Completed" => some .Completed
  | _ => none

/-- An `Assignment` document (assignment schema). -/
structure Assignment where
  id : Nat
  title : String
  description : String
  dueDate : Int
  status : Status
  createdBy : Nat
  createdAt : Int
deriving DecidableEq, Repr

/-- A `Submission` document (submission schema): `reviewed` defaults to
`false`; `grade` and `feedback` are optional. -/
structure Submission where
  id : Nat
  assignmentId : Nat
  studentId : Nat
  answer : String
  submittedAt : Int
  reviewed : Bool
  grade : Option ℚ
  feedback : Option String
deriving DecidableEq, Repr

/-- Semantic error kinds (§7 of the design document) for the controller
early returns. -/
inductive ErrKind where
  | validationError
  | notFound
  | forbidden
  | invalidState
  | conflict
deriving DecidableEq, Repr

/-- An error response: its kind together with the verbatim `message`. -/
structure CtrlError where
  kind : ErrKind
  message : String
deriving DecidableEq, Repr

/-- Embeds `Assignment.findById`. -/
def findAssignment (store : List Assignment) (aid : Nat) : Option Assignment :=
  store.find? (fun a => a.id == aid)

/-- Embeds `assignment.save()`: replace the document with the same id. -/
def saveAssignment (store : List Assignment) (a : Assignment) : List Assignment :=
  store.map (fun b => if b.id == a.id then a else b)

/-- Embeds `Submission.findById`. -/
def findSubmission (store : List Submission) (sid : Nat) : Option Submission :=
  store.find? (fun s => s.id == sid)

/-- Embeds `submission.save()`: replace the document with the same id. -/
def saveSubmission (store : List Submission) (s : Submission) : List Submission :=
  store.map (fun t => if t.id == s.id then s else t)

/-- The transition table `validTransitions` in `updateAssignmentStatus`:
Draft→[Published], Published→[Completed], Completed→[]. -/
def validTransitions : Status → List Status
  | .Draft => [.Published]
  | .Published => [.Completed]
  | .Completed => []

/-- The rejection message for an illegal transition, JS template
`Cannot change status from ${assignment.status} to ${status}`. -/
def transitionMsg (fromS toS : Status) : String :=
  "Cannot change status from " ++ statusName fromS ++ " to " ++ statusName toS

/-- Embeds `updateAssignmentStatus` (PUT /api/assignments/:id/status): validate
the requested status against the enum, find the assignment, check
ownership, check the transition table, then set and save. -/
def updateAssignmentStatus (store : List Assignment) (userId aid : Nat)
    (statusInput : Option String) : Except CtrlError Assignment × List Assignment :=
  match statusInput.bind Status.ofString? with
  | none =>
      (.error ⟨.validationError, "Please provide a valid status (Draft, Published, Completed)"⟩,
       store)
  | some target =>
    match findAssignment store aid with
    | none => (.error ⟨.notFound, "Assignment not found"⟩, store)
    | some a =>
      if a.createdBy ≠ userId then
        (.error ⟨.forbidden, "Not authorized to update this assignment"⟩, store)
      else if target ∉ validTransitions a.status then
        (.error ⟨.invalidState, transitionMsg a.status target⟩, store)
      else
        let a2 := { a with status := target }
        (.ok a2, saveAssignment store a2)

/-- The caller role, established by the auth middleware. -/
inductive Role where
  | teacher
  | student
deriving DecidableEq, Repr

/-- The mongo filter built by `getAssignments`: optional `status` and
`createdBy` clauses. -/
structure AssignFilter where
  status : Option Status
  createdBy : Option Nat
deriving DecidableEq, Repr

/-- Whether an assignment matches every clause of a filter. -/
def matchesFilter (f : AssignFilter) (a : Assignment) : Bool :=
  (match f.status with | none => true | some s => a.status == s) &&
  (match f.createdBy with | none => true | some u => a.createdBy == u)

/-- The role-based filter construction in `getAssignments`: students get
`status = Published`; teachers get `createdBy = userId` plus the query
status when it is one of the three enum values (otherwise ignored). -/
def buildFilter (role : Role) (userId : Nat) (queryStatus : Option String) :
    AssignFilter :=
  match role with
  | .student => { status := some .Published, createdBy := none }
  | .teacher =>
    let base : AssignFilter := { status := none, createdBy := some userId }
    match queryStatus with
    | none => base
    | some qs =>
      match Status.ofString? qs with
      | some s => { base with status := some s }
      | none => base

/-- Embeds `getAssignments` (GET /api/assignments): filter by role, sort by
`createdAt` descending, then paginate with `skip ((page-1)*limit)` and
`limit`.  Returns the page of assignments (the `data` field). -/
def getAssignments (store : List Assignment) (role : Role) (userId : Nat)
    (queryStatus : Option String) (page limit : Nat) : List Assignment :=
  let filter := buildFilter role userId queryStatus
  let startIndex := (page - 1) * limit
  ((((store.filter (matchesFilter filter)).mergeSort
      (fun a b => decide (b.createdAt ≤ a.createdAt))).drop startIndex).take limit)

/-- Embeds `updateAssignment` (PUT /api/assignments/:id): find, check ownership,
Draft-only gate, then set each supplied (truthy) field and save.  JS
truthiness on `if (title)` / `if (description)` skips empty strings;
`dueDate` is modelled post-parse as `Option Int` (absent or empty string
is `none`). -/
def updateAssignment (store : List Assignment) (userId aid : Nat)
    (title description : Option String) (dueDate : Option Int) :
    Except CtrlError Assignment × List Assignment :=
  match findAssignment store aid with
  | none => (.error ⟨.notFound, "Assignment not found"⟩, store)
  | some a =>
    if a.createdBy ≠ userId then
      (.error ⟨.forbidden, "Not authorized to update this assignment"⟩, store)
    else if a.status ≠ .Draft then
      (.error ⟨.invalidState, "Can only edit assignments in Draft status"⟩, store)
    else
      let a1 := match title with
        | some t => if t ≠ "" then { a with title := t } else a
        | none => a
      let a2 := match description with
        | some d => if d ≠ "" then { a1 with description := d } else a1
        | none => a1
      let a3 := match dueDate with
        | some dd => { a2 with dueDate := dd }
        | none => a2
      (.ok a3, saveAssignment store a3)

/-- Embeds `createSubmission` (POST /api/submissions): validate presence of
`assignmentId` and a truthy `answer`, find the assignment, require
Published, reject past due date (`new Date() > assignment.dueDate`),
reject an existing submission for the (assignmentId, studentId) pair,
then create with `reviewed = false` and `grade`/`feedback` unset. -/
def createSubmission (astore : List Assignment) (sstore : List Submission)
    (userId : Nat) (now : Int) (assignmentId : Option Nat) (answer : Option String)
    (newId : Nat) : Except CtrlError Submission × List Submission :=
  match assignmentId, answer with
  | some aid, some ans =>
    if ans = "" then
      (.error ⟨.validationError, "Please provide assignment ID and answer"⟩, sstore)
    else
      match findAssignment astore aid with
      | none => (.error ⟨.notFound, "Assignment not found"⟩, sstore)
      | some a =>
        if a.status ≠ .Published then
          (.error ⟨.invalidState, "Assignment is not available for submission"⟩, sstore)
        else if a.dueDate < now then
          (.error ⟨.invalidState,
            "Assignment due date has passed. Submissions are no longer accepted."⟩, sstore)
        else
          match sstore.find? (fun s => s.assignmentId == aid && s.studentId == userId) with
          | some _ =>
              (.error ⟨.conflict, "You have already submitted this assignment"⟩, sstore)
          | none =>
              let sub : Submission :=
                { id := newId, assignmentId := aid, studentId := userId, answer := ans,
                  submittedAt := now, reviewed := false, grade := none, feedback := none }
              (.ok sub, sstore ++ [sub])
  | _, _ => (.error ⟨.validationError, "Please provide assignment ID and answer"⟩, sstore)

/-- The `grade` field of a review request: a JS number, or some
non-numeric value (`typeof grade !== 'number'`). -/
inductive GradeInput where
  | num (q : ℚ)
  | nonNumber
deriving DecidableEq, Repr

/-- Embeds `reviewSubmission` (PUT /api/submissions/:id/review): find the
submission and its populated assignment, check the teacher owns the
assignment, validate a supplied grade (number in [0,100]) and set it,
set feedback when supplied, always set `reviewed = true`, save.  A
dangling `assignmentId` would crash the JS on the populated `null`
(mapped by the error middleware, never reaching a save); we tag that
path `notFound` to keep the function total — no claim depends on it. -/
def reviewSubmission (astore : List Assignment) (sstore : List Submission)
    (userId sid : Nat) (grade : Option GradeInput) (feedback : Option String) :
    Except CtrlError Submission × List Submission :=
  match findSubmission sstore sid with
  | none => (.error ⟨.notFound, "Submission not found"⟩, sstore)
  | some s =>
    match findAssignment astore s.assignmentId with
    | none => (.error ⟨.notFound, "Submission not found"⟩, sstore)
    | some asg =>
      if asg.createdBy ≠ userId then
        (.error ⟨.forbidden, "Not authorized to review this submission"⟩, sstore)
      else
        let gradeCheck : Except CtrlError (Option ℚ) :=
          match grade with
          | none => .ok s.grade
          | some .nonNumber =>
              .error ⟨.validationError, "Grade must be a number between 0 and 100"⟩
          | some (.num q) =>
              if q < 0 ∨ q > 100 then
                .error ⟨.validationError, "Grade must be a number between 0 and 100"⟩
              else .ok (some q)
        match gradeCheck with
        | .error e => (.error e, sstore)
        | .ok g =>
          let s2 : Submission :=
            { s with
              grade := g,
              feedback := match feedback with | none => s.feedback | some f => some f,
              reviewed := true }
          (.ok s2, saveSubmission sstore s2)

/-- Two submissions target the same (assignmentId, studentId) pair. -/
def samePair (s t : Submission) : Prop :=
  s.assignmentId = t.assignmentId ∧ s.studentId = t.studentId

/-- The uniqueness invariant of the submission store: no two documents
share an (assignmentId, studentId) pair (the unique compound index on
the submission schema). -/
def uniquePairs (l : List Submission) : Prop :=
  l.Pairwise (fun s t => ¬ samePair s t)

/-- One `$group` bucket of the analytics aggregation, keyed by
`assignmentId`. -/
structure GroupStat where
  key : Nat
  totalSubmissions : Nat
  reviewedSubmissions : Nat
  averageGrade : Option ℚ
deriving DecidableEq, Repr

/-- The bucket for one assignmentId over a submission list: count,
reviewed count, and `$avg` of non-null grades (`null` when none). -/
def statFor (subs : List Submission) (aid : Nat) : GroupStat :=
  let g := subs.filter (fun s => s.assignmentId == aid)
  let grades := g.filterMap (fun s => s.grade)
  { key := aid,
    totalSubmissions := g.length,
    reviewedSubmissions := (g.filter (fun s => s.reviewed)).length,
    averageGrade :=
      if grades.length = 0 then none else some (grades.sum / (grades.length : ℚ)) }

/-- The aggregation pipeline: `$match` submissions whose assignmentId is
among the teacher's, `$group` by assignmentId. -/
def submissionStats (subs : List Submission) (ids : List Nat) : List GroupStat :=
  let m := subs.filter (fun s => s.assignmentId ∈ ids)
  ((m.map (fun s => s.assignmentId)).dedup).map (statFor m)

/-- Embeds `Math.round`: round half toward positive infinity. -/
def jsRound (x : ℚ) : ℤ := ⌊x + 1 / 2⌋

/-- Embeds `Math.round(x * 100) / 100`: x rounded to 2 decimal places. -/
def round2 (x : ℚ) : ℚ := (jsRound (x * 100) : ℚ) / 100

/-- One row of `assignmentAnalytics`. -/
structure AnalyticsRow where
  assignmentId : Nat
  title : String
  status : Status
  dueDate : Int
  totalSubmissions : Nat
  reviewedSubmissions : Nat
  pendingReviews : Nat
  averageGrade : Option ℚ
deriving DecidableEq, Repr

/-- The row built for one assignment: look its bucket up in the stats
(defaulting to zeros), compute `pendingReviews = total - reviewed`, and
render `averageGrade` through the JS ternary
`stats.averageGrade ? Math.round(stats.averageGrade * 100) / 100 : null`
— note a numeric 0 is falsy, so a zero mean renders as `null`. -/
def rowFor (stats : List GroupStat) (a : Assignment) : AnalyticsRow :=
  let st := (stats.find? (fun st => st.key == a.id)).getD
    { key := a.id, totalSubmissions := 0, reviewedSubmissions := 0, averageGrade := none }
  { assignmentId := a.id, title := a.title, status := a.status, dueDate := a.dueDate,
    totalSubmissions := st.totalSubmissions,
    reviewedSubmissions := st.reviewedSubmissions,
    pendingReviews := st.totalSubmissions - st.reviewedSubmissions,
    averageGrade :=
      match st.averageGrade with
      | some m => if m ≠ 0 then some (round2 m) else none
      | none => none }

/-- The `overview` block of the analytics response. -/
structure Overview where
  totalAssignments : Nat
  totalSubmissions : Nat
  totalReviewed : Nat
  pendingReviews : Nat
deriving DecidableEq, Repr

/-- Embeds `getAnalytics` (GET /api/analytics): fetch the teacher's
assignments, aggregate submission stats, emit one row per assignment and
the overview totals summed over the aggregation buckets. -/
def getAnalytics (astore : List Assignment) (sstore : List Submission)
    (userId : Nat) : Overview × List AnalyticsRow :=
  let assignments := astore.filter (fun a => a.createdBy == userId)
  let ids := assignments.map (fun a => a.id)
  let stats := submissionStats sstore ids
  let rows := assignments.map (rowFor stats)
  let totalSubs := (stats.map (fun st => st.totalSubmissions)).sum
  let totalRev := (stats.map (fun st => st.reviewedSubmissions)).sum
  ({ totalAssignments := assignments.length,
     totalSubmissions := totalSubs,
     totalReviewed := totalRev,
     pendingReviews := totalSubs - totalRev }, rows)

/-- Every member of a `getAssignments` page matches the built filter. -/
theorem mem_getAssignments {store : List Assignment} {role : Role} {userId : Nat}
    {queryStatus : Option String} {page limit : Nat} {a : Assignment}
    (h : a ∈ getAssignments store role userId queryStatus page limit) :
    matchesFilter (buildFilter role userId queryStatus) a = true := by
  unfold getAssignments at h
  have h1 := List.mem_of_mem_drop (List.mem_of_mem_take h)
  have h2 := (List.mergeSort_perm (store.filter _) _).mem_iff.mp h1
  exact List.of_mem_filter h2

/-- C4: a student's List page holds only Published assignments whatever
status filter was requested; a teacher's List page holds only their own
assignments, additionally filtered by a valid requested status; an
invalid status filter is ignored (same result as no filter), not an
error. -/
theorem getAssignments_role_filtering (store : List Assignment) (userId : Nat)
    (queryStatus : Option String) (page limit : Nat) :
    (∀ a ∈ getAssignments store .student userId queryStatus page limit,
        a.status = .Published) ∧
    (∀ a ∈ getAssignments store .teacher userId queryStatus page limit,
        a.createdBy = userId ∧
          ∀ s : Status, queryStatus = some (statusName s) → a.status = s) ∧
    (∀ qs : String, Status.ofString? qs = none →
        getAssignments store .teacher userId (some qs) page limit =
          getAssignments store .teacher userId none page limit) := by
  refine ⟨?_, ?_, ?_⟩
  · intro a ha
    have h := mem_getAssignments ha
    simpa [buildFilter, matchesFilter] using h
  · intro a ha
    have h := mem_getAssignments ha
    constructor
    · rcases queryStatus with _ | qs
      · simpa [buildFilter, matchesFilter] using h
      · rcases hq : Status.ofString? qs with _ | s <;>
          simp only [buildFilter, hq] at h <;>
          simp [matchesFilter] at h
        · exact h
        · exact h.2
    · intro s hs
      subst hs
      have hq : Status.ofString? (statusName s) = some s := by cases s <;> rfl
      simp only [buildFilter, hq] at h
      simp [matchesFilter] at h
      exact h.1
  · intro qs hq
    unfold getAssignments
    simp [buildFilter, hq]

/-- Witness for C4: on a one-assignment store, the student page yields
only Published, and a bogus teacher filter equals no filter. -/
theorem getAssignments_role_filtering_witness :
    (⟨1, "t", "d", 10, .Published, 7, 0⟩ : Assignment).status = .Published ∧
    getAssignments [⟨1, "t", "d", 10, .Published, 7, 0⟩] .teacher 7 (some "bogus") 1 10 =
      getAssignments [⟨1, "t", "d", 10, .Published, 7, 0⟩] .teacher 7 none 1 10 := by
  constructor
  · exact (getAssignments_role_filtering [⟨1, "t", "d", 10, .Published, 7, 0⟩]
      7 none 1 10).1 ⟨1, "t", "d", 10, .Published, 7, 0⟩
      (by simp [getAssignments, buildFilter, matchesFilter])
  · exact (getAssignments_role_filtering [⟨1, "t", "d", 10, .Published, 7, 0⟩]
      7 (some "bogus") 1 10).2.2 "bogus" rfl

/-- C1: SetStatus succeeds exactly on Draft→Published and
Published→Completed; every other (from, to) pair over the enum fails
`invalidState` with the message naming the attempted from→to transition,
and the store — hence the assignment's status — is unchanged. -/
theorem setStatus_transition_table (store : List Assignment) (userId aid : Nat)
    (target : Status) (a : Assignment)
    (hfind : findAssignment store aid = some a) (hown : a.createdBy = userId) :
    (((a.status = .Draft ∧ target = .Published) ∨
        (a.status = .Published ∧ target = .Completed)) →
      updateAssignmentStatus store userId aid (some (statusName target)) =
        (.ok { a with status := target },
         saveAssignment store { a with status := target })) ∧
    (¬ ((a.status = .Draft ∧ target = .Published) ∨
        (a.status = .Published ∧ target = .Completed)) →
      updateAssignmentStatus store userId aid (some (statusName target)) =
        (.error ⟨.invalidState, transitionMsg a.status target⟩, store)) := by
  have hparse : (some (statusName target)).bind Status.ofString? = some target := by
    cases target <;> rfl
  constructor
  · rintro (⟨h1, h2⟩ | ⟨h1, h2⟩) <;>
      simp [updateAssignmentStatus, Status.ofString?, statusName, hfind, hown, h1, h2,
        validTransitions]
  · intro hno
    have hmem : target ∉ validTransitions a.status := by
      intro hm
      apply hno
      cases hs : a.status <;> rw [hs] at hm <;> simp [validTransitions] at hm <;>
        simp [hs, hm]
    simp [updateAssignmentStatus, hparse, hfind, hown, hmem]

/-- Witness for C1 at a concrete store: a Published assignment accepts
Completed and rejects Draft, leaving the store untouched. -/
theorem setStatus_transition_table_witness :
    updateAssignmentStatus [⟨1, "t", "d", 10, .Published, 7, 0⟩] 7 1 (some "Completed") =
      (.ok ⟨1, "t", "d", 10, .Completed, 7, 0⟩,
       saveAssignment [⟨1, "t", "d", 10, .Published, 7, 0⟩]
         ⟨1, "t", "d", 10, .Completed, 7, 0⟩) ∧
    updateAssignmentStatus [⟨1, "t", "d", 10, .Published, 7, 0⟩] 7 1 (some "Draft") =
      (.error ⟨.invalidState, transitionMsg .Published .Draft⟩,
       [⟨1, "t", "d", 10, .Published, 7, 0⟩]) := by
  constructor
  · exact (setStatus_transition_table [⟨1, "t", "d", 10, .Published, 7, 0⟩] 7 1 .Completed
      ⟨1, "t", "d", 10, .Published, 7, 0⟩ rfl rfl).1 (Or.inr ⟨rfl, rfl⟩)
  · exact (setStatus_transition_table [⟨1, "t", "d", 10, .Published, 7, 0⟩] 7 1 .Draft
      ⟨1, "t", "d", 10, .Published, 7, 0⟩ rfl rfl).2 (by simp)

/-- C9: a successful Update changes only supplied fields among title,
description, dueDate; omitted fields and id, status, createdBy,
createdAt keep their prior values, and every change traces to a
supplied input. -/
theorem updateAssignment_frame (store : List Assignment) (userId aid : Nat)
    (title description : Option String) (dueDate : Option Int) (a a3 : Assignment)
    (hfind : findAssignment store aid = some a)
    (hok : (updateAssignment store userId aid title description dueDate).1 = .ok a3) :
    a3.id = a.id ∧ a3.status = a.status ∧ a3.createdBy = a.createdBy ∧
      a3.createdAt = a.createdAt ∧
    (title = none → a3.title = a.title) ∧
    (description = none → a3.description = a.description) ∧
    (dueDate = none → a3.dueDate = a.dueDate) ∧
    (a3.title = a.title ∨ ∃ t, title = some t ∧ a3.title = t) ∧
    (a3.description = a.description ∨ ∃ d, description = some d ∧ a3.description = d) ∧
    (a3.dueDate = a.dueDate ∨ ∃ dd, dueDate = some dd ∧ a3.dueDate = dd) := by
  unfold updateAssignment at hok
  rw [hfind] at hok
  by_cases hown : a.createdBy = userId
  case neg => simp [hown] at hok
  by_cases hst : a.status = .Draft
  case neg => simp [hown, hst] at hok
  rcases title with _ | t <;> rcases description with _ | d <;> rcases dueDate with _ | dd <;>
    simp only [hown, hst, ne_eq, not_true_eq_false, if_false, ite_not] at hok <;>
    (try split_ifs at hok) <;>
    simp only [Except.ok.injEq] at hok <;> subst hok <;> simp_all

/-- Witness for C9: updating only the title of a Draft assignment
leaves description, dueDate, status, createdBy, createdAt alone. -/
theorem updateAssignment_frame_witness :
    (⟨1, "new", "d", 10, .Draft, 7, 0⟩ : Assignment).status =
        (⟨1, "t", "d", 10, .Draft, 7, 0⟩ : Assignment).status ∧
    (⟨1, "new", "d", 10, .Draft, 7, 0⟩ : Assignment).description =
        (⟨1, "t", "d", 10, .Draft, 7, 0⟩ : Assignment).description := by
  have h := updateAssignment_frame [⟨1, "t", "d", 10, .Draft, 7, 0⟩] 7 1
    (some "new") none none ⟨1, "t", "d", 10, .Draft, 7, 0⟩
    ⟨1, "new", "d", 10, .Draft, 7, 0⟩ rfl rfl
  exact ⟨h.2.1, h.2.2.2.2.2.1 rfl⟩

/-- C6: a successful Review sets `reviewed = true` (even with neither
grade nor feedback supplied), changes `grade` only when a grade was
supplied (to that value) and `feedback` only when feedback was supplied,
and leaves every other field of the submission alone. -/
theorem reviewSubmission_sets_reviewed (astore : List Assignment)
    (sstore : List Submission) (userId sid : Nat)
    (grade : Option GradeInput) (feedback : Option String) (s s2 : Submission)
    (hfind : findSubmission sstore sid = some s)
    (hok : (reviewSubmission astore sstore userId sid grade feedback).1 = .ok s2) :
    s2.reviewed = true ∧
    (grade = none → s2.grade = s.grade) ∧
    (∀ q : ℚ, grade = some (.num q) → s2.grade = some q) ∧
    (feedback = none → s2.feedback = s.feedback) ∧
    (∀ f : String, feedback = some f → s2.feedback = some f) ∧
    s2.id = s.id ∧ s2.assignmentId = s.assignmentId ∧ s2.studentId = s.studentId ∧
    s2.answer = s.answer ∧ s2.submittedAt = s.submittedAt := by
  rcases hasg : findAssignment astore s.assignmentId with _ | asg
  · simp [reviewSubmission, hfind, hasg] at hok
  by_cases hown : asg.createdBy = userId
  case neg => simp [reviewSubmission, hfind, hasg, hown] at hok
  rcases grade with _ | g
  · simp [reviewSubmission, hfind, hasg, hown] at hok
    subst hok
    rcases feedback with _ | f <;> simp
  rcases g with q | _
  · by_cases hq : q < 0 ∨ q > 100
    · simp [reviewSubmission, hfind, hasg, hown, hq] at hok
    · simp [reviewSubmission, hfind, hasg, hown, hq] at hok
      subst hok
      rcases feedback with _ | f <;> simp
  · simp [reviewSubmission, hfind, hasg, hown] at hok

/-- Witness for C6: reviewing with no grade and no feedback still marks
the submission reviewed. -/
theorem reviewSubmission_sets_reviewed_witness :
    (⟨5, 1, 2, "ans", 0, true, none, none⟩ : Submission).reviewed = true ∧
    (⟨5, 1, 2, "ans", 0, true, none, none⟩ : Submission).grade =
      (⟨5, 1, 2, "ans", 0, false, none, none⟩ : Submission).grade := by
  have h := reviewSubmission_sets_reviewed [⟨1, "t", "d", 10, .Published, 7, 0⟩]
    [⟨5, 1, 2, "ans", 0, false, none, none⟩] 7 5 none none
    ⟨5, 1, 2, "ans", 0, false, none, none⟩ ⟨5, 1, 2, "ans", 0, true, none, none⟩ rfl rfl
  exact ⟨h.1, h.2.1 rfl⟩

/-- C7: a Review supplying a non-numeric grade, or a numeric grade
outside [0,100], fails `validationError` and leaves the submission store
— hence the submission's grade, feedback and reviewed flag — unchanged. -/
theorem reviewSubmission_invalid_grade (astore : List Assignment)
    (sstore : List Submission) (userId sid : Nat)
    (g : GradeInput) (feedback : Option String) (s : Submission) (asg : Assignment)
    (hfind : findSubmission sstore sid = some s)
    (hasg : findAssignment astore s.assignmentId = some asg)
    (hown : asg.createdBy = userId)
    (hbad : g = .nonNumber ∨ ∃ q : ℚ, g = .num q ∧ (q < 0 ∨ q > 100)) :
    reviewSubmission astore sstore userId sid (some g) feedback =
      (.error ⟨.validationError, "Grade must be a number between 0 and 100"⟩, sstore) := by
  rcases hbad with hb | ⟨q, hb, hq⟩
  · subst hb
    simp [reviewSubmission, hfind, hasg, hown]
  · subst hb
    simp [reviewSubmission, hfind, hasg, hown, hq]

/-- Witness for C7: a grade of 150 on a well-formed review request is
rejected and the store is returned untouched. -/
theorem reviewSubmission_invalid_grade_witness :
    reviewSubmission [⟨1, "t", "d", 10, .Published, 7, 0⟩]
      [⟨5, 1, 2, "ans", 0, false, none, none⟩] 7 5 (some (.num 150)) none =
      (.error ⟨.validationError, "Grade must be a number between 0 and 100"⟩,
       [⟨5, 1, 2, "ans", 0, false, none, none⟩]) := by
  exact reviewSubmission_invalid_grade [⟨1, "t", "d", 10, .Published, 7, 0⟩]
    [⟨5, 1, 2, "ans", 0, false, none, none⟩] 7 5 (.num 150) none
    ⟨5, 1, 2, "ans", 0, false, none, none⟩ ⟨1, "t", "d", 10, .Published, 7, 0⟩
    rfl rfl rfl (Or.inr ⟨150, rfl, Or.inr (by norm_num)⟩)

/-- C3: with both inputs present and no prior submission for the pair,
Create fails `invalidState` against a Draft or Completed assignment;
fails `invalidState` against a Published assignment whose due date has
passed; and succeeds against a Published assignment with a future due
date, creating the submission with `reviewed = false` and `grade` and
`feedback` unset. -/
theorem createSubmission_gating (astore : List Assignment) (sstore : List Submission)
    (userId : Nat) (now : Int) (aid newId : Nat) (ans : String) (a : Assignment)
    (hans : ans ≠ "") (hfind : findAssignment astore aid = some a)
    (hnone : sstore.find? (fun s => s.assignmentId == aid && s.studentId == userId)
      = none) :
    ((a.status = .Draft ∨ a.status = .Completed) →
      createSubmission astore sstore userId now (some aid) (some ans) newId =
        (.error ⟨.invalidState, "Assignment is not available for submission"⟩, sstore)) ∧
    (a.status = .Published → a.dueDate < now →
      createSubmission astore sstore userId now (some aid) (some ans) newId =
        (.error ⟨.invalidState,
          "Assignment due date has passed. Submissions are no longer accepted."⟩,
         sstore)) ∧
    (a.status = .Published → now < a.dueDate →
      createSubmission astore sstore userId now (some aid) (some ans) newId =
        (.ok ⟨newId, aid, userId, ans, now, false, none, none⟩,
         sstore ++ [⟨newId, aid, userId, ans, now, false, none, none⟩])) := by
  refine ⟨?_, ?_, ?_⟩
  · intro hs
    have hnp : a.status ≠ .Published := by rcases hs with h | h <;> simp [h]
    simp [createSubmission, hans, hfind, hnp]
  · intro hs hdue
    simp [createSubmission, hans, hfind, hs, hdue]
  · intro hs hdue
    have hnd : ¬ a.dueDate < now := by omega
    simp [createSubmission, hans, hfind, hs, hnd, hnone]

/-- Witness for C3: a submission against a Published assignment with a
future due date is created with `reviewed = false` and no grade or
feedback. -/
theorem createSubmission_gating_witness :
    createSubmission [⟨1, "t", "d", 10, .Published, 7, 0⟩] [] 2 5
        (some 1) (some "ans") 5 =
      (.ok ⟨5, 1, 2, "ans", 5, false, none, none⟩,
       [⟨5, 1, 2, "ans", 5, false, none, none⟩]) := by
  exact (createSubmission_gating [⟨1, "t", "d", 10, .Published, 7, 0⟩] [] 2 5 1 5 "ans"
    ⟨1, "t", "d", 10, .Published, 7, 0⟩ (by decide) rfl rfl).2.2 rfl (by norm_num)

/-- Case analysis on the submission store after `createSubmission`: it
is unchanged, or — when every gate passed and no duplicate was found —
the new submission was appended. -/
theorem createSubmission_store_cases (astore : List Assignment)
    (sstore : List Submission) (userId : Nat) (now : Int)
    (assignmentId : Option Nat) (answer : Option String) (newId : Nat) :
    (createSubmission astore sstore userId now assignmentId answer newId).2 = sstore ∨
    ∃ aid ans, assignmentId = some aid ∧ answer = some ans ∧
      sstore.find? (fun s => s.assignmentId == aid && s.studentId == userId) = none ∧
      (createSubmission astore sstore userId now assignmentId answer newId).2 =
        sstore ++ [⟨newId, aid, userId, ans, now, false, none, none⟩] := by
  rcases assignmentId with _ | aid
  · left; rfl
  rcases answer with _ | ans
  · left; rfl
  by_cases hans : ans = ""
  · left; simp [createSubmission, hans]
  rcases hfind : findAssignment astore aid with _ | a
  · left; simp [createSubmission, hans, hfind]
  by_cases hpub : a.status = .Published
  case neg => left; simp [createSubmission, hans, hfind, hpub]
  by_cases hdue : a.dueDate < now
  · left; simp [createSubmission, hans, hfind, hpub, hdue]
  rcases hdup : sstore.find? (fun s => s.assignmentId == aid && s.studentId == userId)
    with _ | w
  · right
    exact ⟨aid, ans, rfl, rfl, hdup,
      by simp [createSubmission, hans, hfind, hpub, hdue, hdup]⟩
  · left; simp [createSubmission, hans, hfind, hpub, hdue, hdup]

/-- Case analysis on the submission store after `reviewSubmission`: it
is unchanged, or the found submission was saved back with only grade,
feedback and the reviewed flag rewritten. -/
theorem reviewSubmission_store_cases (astore : List Assignment)
    (sstore : List Submission) (userId sid : Nat)
    (grade : Option GradeInput) (feedback : Option String) :
    (reviewSubmission astore sstore userId sid grade feedback).2 = sstore ∨
    ∃ s g fb, findSubmission sstore sid = some s ∧
      (reviewSubmission astore sstore userId sid grade feedback).2 =
        saveSubmission sstore
          { s with grade := g, feedback := fb, reviewed := true } := by
  rcases hfind : findSubmission sstore sid with _ | s
  · left; simp [reviewSubmission, hfind]
  rcases hasg : findAssignment astore s.assignmentId with _ | asg
  · left; simp [reviewSubmission, hfind, hasg]
  by_cases hown : asg.createdBy = userId
  case neg => left; simp [reviewSubmission, hfind, hasg, hown]
  rcases feedback with _ | f
  · rcases grade with _ | g
    · right
      exact ⟨s, s.grade, s.feedback, rfl,
        by simp [reviewSubmission, hfind, hasg, hown]⟩
    rcases g with q | _
    · by_cases hq : q < 0 ∨ q > 100
      · left; simp [reviewSubmission, hfind, hasg, hown, hq]
      · right
        exact ⟨s, some q, s.feedback, rfl,
          by simp [reviewSubmission, hfind, hasg, hown, hq]⟩
    · left; simp [reviewSubmission, hfind, hasg, hown]
  · rcases grade with _ | g
    · right
      exact ⟨s, s.grade, some f, rfl,
        by simp [reviewSubmission, hfind, hasg, hown]⟩
    rcases g with q | _
    · by_cases hq : q < 0 ∨ q > 100
      · left; simp [reviewSubmission, hfind, hasg, hown, hq]
      · right
        exact ⟨s, some q, some f, rfl,
          by simp [reviewSubmission, hfind, hasg, hown, hq]⟩
    · left; simp [reviewSubmission, hfind, hasg, hown]

/-- Replacing a stored submission by one with the same id and the same
(assignmentId, studentId) pair keeps the pair-uniqueness invariant,
provided document ids are unique. -/
theorem uniquePairs_saveSubmission (sstore : List Submission) (s s2 : Submission)
    (hmem : s ∈ sstore) (hid : s2.id = s.id)
    (hpa : s2.assignmentId = s.assignmentId) (hps : s2.studentId = s.studentId)
    (hids : (sstore.map (fun t => t.id)).Nodup)
    (hu : uniquePairs sstore) : uniquePairs (saveSubmission sstore s2) := by
  have hinj : ∀ ⦃t⦄, t ∈ sstore → ∀ ⦃u⦄, u ∈ sstore → t.id = u.id → t = u :=
    List.inj_on_of_nodup_map hids
  have hidpw : sstore.Pairwise (fun a b => a.id ≠ b.id) := List.pairwise_map.mp hids
  unfold uniquePairs saveSubmission
  rw [List.pairwise_map]
  refine List.Pairwise.imp_of_mem ?_ (hu.and hidpw)
  intro t u hmt hmu h
  obtain ⟨hnp, hne⟩ := h
  by_cases ht : t.id = s2.id
  · by_cases hu2 : u.id = s2.id
    · exact absurd (ht.trans hu2.symm) hne
    · have hts : t = s := hinj hmt hmem (ht.trans hid)
      have h1 : (t.id == s2.id) = true := by simpa using ht
      have h2 : (u.id == s2.id) = false := by simpa using hu2
      simp only [h1, h2, if_true, if_false]
      rw [samePair, hpa, hps, ← hts]
      exact hnp
  · by_cases hu2 : u.id = s2.id
    · have hus : u = s := hinj hmu hmem (hu2.trans hid)
      have h1 : (t.id == s2.id) = false := by simpa using ht
      have h2 : (u.id == s2.id) = true := by simpa using hu2
      simp only [h1, h2, if_true, if_false]
      rw [samePair, hpa, hps, ← hus]
      exact hnp
    · have h1 : (t.id == s2.id) = false := by simpa using ht
      have h2 : (u.id == s2.id) = false := by simpa using hu2
      simp only [h1, h2, if_false]
      exact hnp

/-- C2: a Create for a pair that already has a submission (every other
gate passing) fails `conflict` and creates nothing, and the at-most-one
Submission per (assignmentId, studentId) invariant is preserved by both
store-mutating submission operations, Create and Review. -/
theorem submission_pair_uniqueness (astore : List Assignment)
    (sstore : List Submission) (userId : Nat) (now : Int) (aid newId sid : Nat)
    (ans : String) (assignmentId : Option Nat) (answer : Option String)
    (grade : Option GradeInput) (feedback : Option String)
    (ex : Submission) (hex : ex ∈ sstore)
    (hexa : ex.assignmentId = aid) (hexs : ex.studentId = userId)
    (a : Assignment) (hfind : findAssignment astore aid = some a)
    (hpub : a.status = .Published) (hdue : ¬ a.dueDate < now) (hans : ans ≠ "")
    (hids : (sstore.map (fun t => t.id)).Nodup) :
    createSubmission astore sstore userId now (some aid) (some ans) newId =
      (.error ⟨.conflict, "You have already submitted this assignment"⟩, sstore) ∧
    (uniquePairs sstore →
      uniquePairs
        (createSubmission astore sstore userId now assignmentId answer newId).2) ∧
    (uniquePairs sstore →
      uniquePairs (reviewSubmission astore sstore userId sid grade feedback).2) := by
  refine ⟨?_, ?_, ?_⟩
  · obtain ⟨w, hw⟩ : ∃ w, sstore.find?
        (fun s => s.assignmentId == aid && s.studentId == userId) = some w := by
      apply Option.isSome_iff_exists.mp
      exact List.find?_isSome.mpr ⟨ex, hex, by simp [hexa, hexs]⟩
    simp [createSubmission, hans, hfind, hpub, hdue, hw]
  · intro hu
    rcases createSubmission_store_cases astore sstore userId now assignmentId answer
        newId with h | ⟨aid2, ans2, _, _, hdup, h⟩
    · rwa [h]
    · rw [h]
      rw [uniquePairs, List.pairwise_append]
      refine ⟨hu, List.pairwise_singleton _ _, ?_⟩
      intro x hx b hb
      have hnd := List.find?_eq_none.mp hdup x hx
      simp only [List.mem_singleton] at hb
      subst hb
      simp only [Bool.and_eq_true, beq_iff_eq, not_and] at hnd
      rintro ⟨h1, h2⟩
      exact hnd h1 h2
  · intro hu
    rcases reviewSubmission_store_cases astore sstore userId sid grade feedback
      with h | ⟨s, g, fb, hfs, h⟩
    · rwa [h]
    · rw [h]
      exact uniquePairs_saveSubmission sstore s _
        (List.mem_of_find?_eq_some hfs) rfl rfl rfl hids hu

/-- Witness for C2: a second submission by student 2 against assignment
1 is rejected as a conflict and the store keeps the single original
submission. -/
theorem submission_pair_uniqueness_witness :
    createSubmission [⟨1, "t", "d", 10, .Published, 7, 0⟩]
        [⟨5, 1, 2, "old", 0, false, none, none⟩] 2 5 (some 1) (some "again") 6 =
      (.error ⟨.conflict, "You have already submitted this assignment"⟩,
       [⟨5, 1, 2, "old", 0, false, none, none⟩]) := by
  exact (submission_pair_uniqueness [⟨1, "t", "d", 10, .Published, 7, 0⟩]
    [⟨5, 1, 2, "old", 0, false, none, none⟩] 2 5 1 6 0 "again" none none none none
    ⟨5, 1, 2, "old", 0, false, none, none⟩ (by simp) rfl rfl
    ⟨1, "t", "d", 10, .Published, 7, 0⟩ rfl rfl (by norm_num) (by decide) (by simp)).1

/-- C10: `reviewed` is monotone — Create makes its new submission with
`reviewed = false` and never flips an existing flag, and Review never
resets a `reviewed = true` flag (the only write it performs on the flag
is `true`). -/
theorem reviewed_monotone (astore : List Assignment) (sstore : List Submission)
    (userId : Nat) (now : Int) (assignmentId : Option Nat) (answer : Option String)
    (newId sid : Nat) (grade : Option GradeInput) (feedback : Option String)
    (hids : (sstore.map (fun t => t.id)).Nodup)
    (hfresh : ∀ t ∈ sstore, t.id ≠ newId) :
    (∀ sub : Submission,
        (createSubmission astore sstore userId now assignmentId answer newId).1 =
          .ok sub → sub.reviewed = false) ∧
    (∀ s0 ∈ sstore, s0.reviewed = true →
      ∀ t ∈ (createSubmission astore sstore userId now assignmentId answer newId).2,
        t.id = s0.id → t.reviewed = true) ∧
    (∀ s0 ∈ sstore, s0.reviewed = true →
      ∀ t ∈ (reviewSubmission astore sstore userId sid grade feedback).2,
        t.id = s0.id → t.reviewed = true) := by
  refine ⟨?_, ?_, ?_⟩
  · intro sub hok
    rcases assignmentId with _ | aid
    · simp [createSubmission] at hok
    rcases answer with _ | ans
    · simp [createSubmission] at hok
    by_cases hans : ans = ""
    · simp [createSubmission, hans] at hok
    rcases hfind : findAssignment astore aid with _ | a
    · simp [createSubmission, hans, hfind] at hok
    by_cases hpub : a.status = .Published
    case neg => simp [createSubmission, hans, hfind, hpub] at hok
    by_cases hdue : a.dueDate < now
    · simp [createSubmission, hans, hfind, hpub, hdue] at hok
    rcases hdup : sstore.find?
        (fun s => s.assignmentId == aid && s.studentId == userId) with _ | w
    · simp [createSubmission, hans, hfind, hpub, hdue, hdup] at hok
      rw [← hok]
    · simp [createSubmission, hans, hfind, hpub, hdue, hdup] at hok
  · intro s0 hs0 hrev t ht hid
    rcases createSubmission_store_cases astore sstore userId now assignmentId answer
        newId with h | ⟨aid2, ans2, _, _, _, h⟩
    · rw [h] at ht
      rw [List.inj_on_of_nodup_map hids ht hs0 hid]
      exact hrev
    · rw [h] at ht
      rcases List.mem_append.mp ht with ht' | ht'
      · rw [List.inj_on_of_nodup_map hids ht' hs0 hid]
        exact hrev
      · have hteq : t = ⟨newId, aid2, userId, ans2, now, false, none, none⟩ := by
          simpa using ht'
        subst hteq
        exact absurd hid.symm (hfresh s0 hs0)
  · intro s0 hs0 hrev t ht hid
    rcases reviewSubmission_store_cases astore sstore userId sid grade feedback
      with h | ⟨s, g, fb, hfs, h⟩
    · rw [h] at ht
      rw [List.inj_on_of_nodup_map hids ht hs0 hid]
      exact hrev
    · rw [h] at ht
      unfold saveSubmission at ht
      rcases List.mem_map.mp ht with ⟨u, hu, hut⟩
      by_cases hui : (u.id == s.id) = true
      · rw [← hut]
        simp [hui]
      · rw [← hut] at hid ⊢
        simp only [show ((({ s with grade := g, feedback := fb, reviewed := true } :
            Submission)).id) = s.id from rfl, hui, if_false] at hid ⊢
        rw [List.inj_on_of_nodup_map hids hu hs0 hid]
        exact hrev

/-- Witness for C10: reviewing a submission whose flag is already true
leaves the stored flag true. -/
theorem reviewed_monotone_witness :
    (⟨5, 1, 2, "ans", 0, true, none, some "good"⟩ : Submission).reviewed = true := by
  exact (reviewed_monotone [⟨1, "t", "d", 10, .Published, 7, 0⟩]
      [⟨5, 1, 2, "ans", 0, true, none, none⟩] 7 0 none none 6 5 none (some "good")
      (by simp) (by simp)).2.2
    ⟨5, 1, 2, "ans", 0, true, none, none⟩ (by simp) rfl
    ⟨5, 1, 2, "ans", 0, true, none, some "good"⟩ (by decide) rfl

/-- The `_id` of a `$group` bucket is the assignmentId it was built for. -/
theorem statFor_key (m : List Submission) (aid : Nat) : (statFor m aid).key = aid := rfl

/-- Looking a bucket up by key in a keyed map of `statFor` buckets finds
exactly the bucket of a present key. -/
theorem find_stat_map (m : List Submission) (keys : List Nat) (i : Nat) :
    ((keys.map (statFor m)).find? (fun st => st.key == i)) =
      if i ∈ keys then some (statFor m i) else none := by
  induction keys with
  | nil => simp
  | cons k ks ih =>
    by_cases h : k = i
    · subst h
      simp [List.find?_cons, statFor_key]
    · simp [List.find?_cons, statFor_key, h, Ne.symm h, ih]

/-- Summing an indicator over a duplicate-free list equals summing over
the (duplicate-free) sublist of selected keys. -/
theorem sum_indicator_over_nodup (l keys : List Nat) (f : Nat → Nat)
    (hl : l.Nodup) (hk : keys.Nodup) (hsub : ∀ k ∈ keys, k ∈ l) :
    (l.map (fun i => if i ∈ keys then f i else 0)).sum = (keys.map f).sum := by
  have hsubset : keys.toFinset ⊆ l.toFinset := by
    intro x hx
    exact List.mem_toFinset.mpr (hsub x (List.mem_toFinset.mp hx))
  rw [← List.sum_toFinset _ hl, ← List.sum_toFinset _ hk]
  rw [← Finset.sum_subset hsubset (by
    intro x hx hnx
    have : x ∉ keys := fun hxk => hnx (List.mem_toFinset.mpr hxk)
    simp [this])]
  apply Finset.sum_congr rfl
  intro x hx
  simp [List.mem_toFinset.mp hx]

/-- Every `$group` key comes from a matched submission, so it is one of
the teacher's assignment ids. -/
theorem submissionStats_keys_subset (sstore : List Submission) (ids : List Nat) :
    ∀ k ∈ ((sstore.filter (fun s => s.assignmentId ∈ ids)).map
      (fun s => s.assignmentId)).dedup, k ∈ ids := by
  intro k hk
  rw [List.mem_dedup] at hk
  rcases List.mem_map.mp hk with ⟨s, hs, rfl⟩
  have := (List.mem_filter.mp hs).2
  simpa using this


/-- A row's submission count is its bucket's count, or 0 when the
assignment has no bucket. -/
theorem rowFor_totalSubmissions (m : List Submission) (keys : List Nat)
    (a : Assignment) :
    (rowFor (keys.map (statFor m)) a).totalSubmissions =
      if a.id ∈ keys then (statFor m a.id).totalSubmissions else 0 := by
  unfold rowFor
  rw [find_stat_map]
  by_cases h : a.id ∈ keys <;> simp [h]

/-- A row's reviewed count is its bucket's count, or 0 when the
assignment has no bucket. -/
theorem rowFor_reviewedSubmissions (m : List Submission) (keys : List Nat)
    (a : Assignment) :
    (rowFor (keys.map (statFor m)) a).reviewedSubmissions =
      if a.id ∈ keys then (statFor m a.id).reviewedSubmissions else 0 := by
  unfold rowFor
  rw [find_stat_map]
  by_cases h : a.id ∈ keys <;> simp [h]

/-- Summing the row submission counts over duplicate-free assignment ids
equals summing the bucket counts. -/
theorem sum_rows_total (owned : List Assignment) (m : List Submission)
    (keys : List Nat) (hnd : (owned.map (fun a => a.id)).Nodup) (hk : keys.Nodup)
    (hsub : ∀ k ∈ keys, k ∈ owned.map (fun a => a.id)) :
    ((owned.map (rowFor (keys.map (statFor m)))).map
        (fun r => r.totalSubmissions)).sum =
      ((keys.map (statFor m)).map (fun st => st.totalSubmissions)).sum := by
  rw [List.map_map, List.map_map]
  simp only [Function.comp_def]
  rw [List.map_congr_left (fun a _ => rowFor_totalSubmissions m keys a)]
  have h := sum_indicator_over_nodup (owned.map (fun a => a.id)) keys
    (fun i => (statFor m i).totalSubmissions) hnd hk hsub
  rw [List.map_map] at h
  exact h

/-- Summing the row reviewed counts over duplicate-free assignment ids
equals summing the bucket counts. -/
theorem sum_rows_reviewed (owned : List Assignment) (m : List Submission)
    (keys : List Nat) (hnd : (owned.map (fun a => a.id)).Nodup) (hk : keys.Nodup)
    (hsub : ∀ k ∈ keys, k ∈ owned.map (fun a => a.id)) :
    ((owned.map (rowFor (keys.map (statFor m)))).map
        (fun r => r.reviewedSubmissions)).sum =
      ((keys.map (statFor m)).map (fun st => st.reviewedSubmissions)).sum := by
  rw [List.map_map, List.map_map]
  simp only [Function.comp_def]
  rw [List.map_congr_left (fun a _ => rowFor_reviewedSubmissions m keys a)]
  have h := sum_indicator_over_nodup (owned.map (fun a => a.id)) keys
    (fun i => (statFor m i).reviewedSubmissions) hnd hk hsub
  rw [List.map_map] at h
  exact h

/-- C8: the Analytics Report emits one row per owned assignment (the
row ids are exactly the owned assignment ids, in order), a row whose
assignment has no submissions carries 0/0/0/null, and the overview
satisfies totalAssignments = number of owned assignments,
totalSubmissions and totalReviewed = the sums of the respective row
columns, and pendingReviews = totalSubmissions − totalReviewed. -/
theorem analytics_overview_consistent (astore : List Assignment)
    (sstore : List Submission) (userId : Nat)
    (hnd : ((astore.filter (fun a => a.createdBy == userId)).map
      (fun a => a.id)).Nodup) :
    ((getAnalytics astore sstore userId).2.map (fun r => r.assignmentId)) =
      ((astore.filter (fun a => a.createdBy == userId)).map (fun a => a.id)) ∧
    (∀ r ∈ (getAnalytics astore sstore userId).2,
      (∀ s ∈ sstore, s.assignmentId ≠ r.assignmentId) →
      r.totalSubmissions = 0 ∧ r.reviewedSubmissions = 0 ∧ r.pendingReviews = 0 ∧
        r.averageGrade = none) ∧
    ((getAnalytics astore sstore userId).1.totalAssignments =
      (astore.filter (fun a => a.createdBy == userId)).length) ∧
    ((getAnalytics astore sstore userId).1.totalSubmissions =
      ((getAnalytics astore sstore userId).2.map (fun r => r.totalSubmissions)).sum) ∧
    ((getAnalytics astore sstore userId).1.totalReviewed =
      ((getAnalytics astore sstore userId).2.map
        (fun r => r.reviewedSubmissions)).sum) ∧
    ((getAnalytics astore sstore userId).1.pendingReviews =
      (getAnalytics astore sstore userId).1.totalSubmissions -
        (getAnalytics astore sstore userId).1.totalReviewed) := by
  refine ⟨?_, ?_, rfl, ?_, ?_, rfl⟩
  · simp only [getAnalytics]
    rw [List.map_map]
    rfl
  · intro r hr hno
    simp only [getAnalytics, submissionStats] at hr
    rcases List.mem_map.mp hr with ⟨a, ha, rfl⟩
    have hnk : a.id ∉ ((sstore.filter (fun s => s.assignmentId ∈
        (astore.filter (fun b => b.createdBy == userId)).map (fun b => b.id))).map
          (fun s => s.assignmentId)).dedup := by
      intro hk
      rcases List.mem_map.mp (List.mem_dedup.mp hk) with ⟨s, hs, he⟩
      exact hno s (List.mem_filter.mp hs).1 he
    refine ⟨?_, ?_, ?_, ?_⟩ <;>
      (simp only [rowFor]; rw [find_stat_map, if_neg hnk]; rfl)
  · exact (sum_rows_total (astore.filter (fun a => a.createdBy == userId))
      (sstore.filter (fun s => s.assignmentId ∈
        (astore.filter (fun a => a.createdBy == userId)).map (fun a => a.id)))
      (((sstore.filter (fun s => s.assignmentId ∈
        (astore.filter (fun a => a.createdBy == userId)).map (fun a => a.id))).map
          (fun s => s.assignmentId)).dedup)
      hnd (List.nodup_dedup _) (submissionStats_keys_subset sstore _)).symm
  · exact (sum_rows_reviewed (astore.filter (fun a => a.createdBy == userId))
      (sstore.filter (fun s => s.assignmentId ∈
        (astore.filter (fun a => a.createdBy == userId)).map (fun a => a.id)))
      (((sstore.filter (fun s => s.assignmentId ∈
        (astore.filter (fun a => a.createdBy == userId)).map (fun a => a.id))).map
          (fun s => s.assignmentId)).dedup)
      hnd (List.nodup_dedup _) (submissionStats_keys_subset sstore _)).symm

/-- Witness for C8: a teacher with one submitted-to assignment and one
empty assignment — the row ids, totals and overview identities hold on
the concrete report. -/
theorem analytics_overview_consistent_witness :
    ((getAnalytics [⟨1, "t1", "d", 10, .Published, 7, 0⟩,
        ⟨2, "t2", "d", 10, .Draft, 7, 0⟩]
      [⟨5, 1, 3, "ans", 0, true, none, none⟩] 7).1.totalAssignments =
      (([⟨1, "t1", "d", 10, .Published, 7, 0⟩,
        ⟨2, "t2", "d", 10, .Draft, 7, 0⟩] : List Assignment).filter
          (fun a => a.createdBy == 7)).length) ∧
    ((getAnalytics [⟨1, "t1", "d", 10, .Published, 7, 0⟩,
        ⟨2, "t2", "d", 10, .Draft, 7, 0⟩]
      [⟨5, 1, 3, "ans", 0, true, none, none⟩] 7).1.totalSubmissions =
      ((getAnalytics [⟨1, "t1", "d", 10, .Published, 7, 0⟩,
          ⟨2, "t2", "d", 10, .Draft, 7, 0⟩]
        [⟨5, 1, 3, "ans", 0, true, none, none⟩] 7).2.map
          (fun r => r.totalSubmissions)).sum) := by
  constructor
  · exact (analytics_overview_consistent [⟨1, "t1", "d", 10, .Published, 7, 0⟩,
      ⟨2, "t2", "d", 10, .Draft, 7, 0⟩]
      [⟨5, 1, 3, "ans", 0, true, none, none⟩] 7 (by decide)).2.2.1
  · exact (analytics_overview_consistent [⟨1, "t1", "d", 10, .Published, 7, 0⟩,
      ⟨2, "t2", "d", 10, .Draft, 7, 0⟩]
      [⟨5, 1, 3, "ans", 0, true, none, none⟩] 7 (by decide)).2.2.2.1

/-- C5 (refutation at a concrete input): one owned assignment with a
single graded submission whose grade is 0.  The bucket's mean of
non-null grades exists and is 0, yet the emitted row's `averageGrade`
is `null`, because the JS ternary
`stats.averageGrade ? Math.round(stats.averageGrade * 100) / 100 : null`
treats the numeric mean 0 as falsy.  So on this code `averageGrade =
null` does not coincide with "no graded submissions". -/
theorem analytics_averageGrade_zero_is_null :
    ((getAnalytics [⟨1, "t", "d", 10, .Published, 7, 0⟩]
        [⟨5, 1, 2, "ans", 0, true, some 0, none⟩] 7).2.map
      (fun r => r.averageGrade)) = [none] ∧
    (statFor [⟨5, 1, 2, "ans", 0, true, some 0, none⟩] 1).averageGrade = some 0 ∧
    ([⟨5, 1, 2, "ans", 0, true, some 0, none⟩] : List Submission).filterMap
      (fun s => s.grade) = [0] := by
  refine ⟨?_, ?_, ?_⟩
  · simp [getAnalytics, submissionStats, rowFor, statFor]
  · simp [statFor]
  · rfl
